import Mathlib

/-!
Verification development for the streamflow-routing convolution program
(`src/convolution/python/coup_conv.py`).  The per-outlet convolution ring,
the registry construction (`make_point_dict`), the state capture/restore
paths, the flux-combination policy of `run`, and the grid-area unit
conversion of `init` are embedded as executable Lean definitions over `ℚ`
(the Python floats are idealised as exact rationals), and the spec's claims
about them are settled as theorems.
-/

namespace CoupConv

/-- Physical and unit-conversion constants from the top of `coup_conv.py`
(lines 18-27).  `earthRadius = 6.37122e6`, `metersPerMile = 1609.34`,
`meters2PerAcre = 4046.856`. -/
def earthRadius : ℚ := 6371220

def metersPerKm : ℚ := 1000

def metersPerMile : ℚ := 160934 / 100

def meters2PerAcre : ℚ := 4046856 / 1000

def secsPerHour : ℚ := 3600

def secsPerDay : ℚ := 86400

def mmPerMeter : ℚ := 1000

def cmPerMeter : ℚ := 100

/-- Embedding of `shift(l, offset)` (lines 572-577):
`offset %= len(l); return np.concatenate((l[offset:], l[:offset]))`.
With `offset = 1` this rotates the list left by one position. -/
def shift (l : List ℚ) (offset : Nat) : List ℚ :=
  let o := offset % l.length
  l.drop o ++ l.take o

/-- A flux grid for one timestep: a 2-D array of rationals, row-major
(`flux[y][x]`).  The leading length-1 time dimension of the numpy array is
dropped. -/
abbrev Grid := List (List ℚ)

/-- Reading one grid cell `g[y, x]`.  An out-of-range index is numpy's
`IndexError`, modelled as `none`. -/
def lookupCell (g : Grid) (y x : Nat) : Option ℚ :=
  match g.get? y with
  | none => none
  | some row => row.get? x

/-- Embedding of the fancy-indexing read `flux[:, d['yi'], d['xi']]`
(line 460): the K contributing-cell values, in order; fails (IndexError)
if any index pair is outside the grid, before anything is written. -/
def gatherFlux (g : Grid) : List (Nat × Nat) → Option (List ℚ)
  | [] => some []
  | c :: cs =>
    match lookupCell g c.1 c.2, gatherFlux g cs with
    | some v, some vs => some (v :: vs)
    | _, _ => none

/-- Dot product of two equal-length vectors, used for one lag row of
`(flux[:, yi, xi] * d['uh']).sum(axis=1)`. -/
def dotProd (a b : List ℚ) : ℚ := (List.zipWith (· * ·) a b).sum

/-- Embedding of `(flux[:, d['yi'], d['xi']] * d['uh']).sum(axis=1)`
(line 460): for each of the L rows of the unit-hydrograph matrix, the dot
product of the K gathered flux values with that row. -/
def contrib (fv : List ℚ) (uh : List (List ℚ)) : List ℚ := uh.map (dotProd fv)

/-- Elementwise vector addition, the `d['ring'] += ...` accumulate. -/
def addVec (a b : List ℚ) : List ℚ := List.zipWith (· + ·) a b

/-- One outlet record of `point_dict` as built by `make_point_dict`
(lines 361-400): outlet grid location `(y, x)` (the dictionary key),
latitude/longitude, the lag-time axis `d['time']` (length L), the
contributing-cell index pairs (`d['yi']`, `d['xi']` zipped, length K), the
scaled unit-hydrograph matrix `d['uh']` (L rows of K entries), and the
convolution ring `d['ring']` (length L).  The field `d['now']` of the source
is always `0` (set at line 391 and never changed), so it is inlined as the
literal index 0 below. -/
structure Outlet where
  y : Nat
  x : Nat
  lat : ℚ
  lon : ℚ
  time : List ℚ
  cells : List (Nat × Nat)
  uh : List (List ℚ)
  ring : List ℚ
deriving Repr, DecidableEq

/-- The `point_dict` key `(d['y'], d['x'])` (line 399). -/
def outletKey (d : Outlet) : Nat × Nat := (d.y, d.x)

/-- One outlet's share of a `convolve` timestep (lines 459-472):
gather the K contributing-cell fluxes (IndexError → `none`, raised before
the ring is touched), accumulate `ring += contribution`, emit `ring[0]`
(IndexError on an empty ring → `none`), zero slot `now = 0`, and rotate the
ring left by one with `shift`.  Returns the updated outlet and the emitted
value. -/
def advanceOutlet (g : Grid) (d : Outlet) : Option (Outlet × ℚ) :=
  match gatherFlux g d.cells with
  | none => none
  | some fv =>
    let ring1 := addVec d.ring (contrib fv d.uh)
    match ring1.get? 0 with
    | none => none
    | some e => some ({ d with ring := shift (ring1.set 0 0) 1 }, e)

/-- Embedding of the per-outlet loop of `convolve` (lines 447-481), array
output path: outlets are processed in registry (insertion) order; the
emitted values are collected into `out_flow` in that order.  A Python
exception inside the loop propagates while `point_dict` keeps the in-place
mutations already applied, so failure is modelled as `.error` carrying the
registry at the moment of the exception: the already-advanced prefix
followed by the failing outlet and the rest, unadvanced. -/
def convolve (g : Grid) : List Outlet → Except (List Outlet) (List Outlet × List ℚ)
  | [] => .ok ([], [])
  | d :: rest =>
    match advanceOutlet g d with
    | none => .error (d :: rest)
    | some (d2, e) =>
      match convolve g rest with
      | .ok (rest2, es) => .ok (d2 :: rest2, e :: es)
      | .error rest2 => .error (d2 :: rest2)

/-- The timestep loop of `run` (lines 147-199) restricted to its routing
content: fold `convolve` over the per-timestep flux grids, collecting each
timestep's `out_flow`.  An exception aborts the run with the registry as
mutated so far. -/
def runTimesteps (pd : List Outlet) :
    List Grid → Except (List Outlet) (List Outlet × List (List ℚ))
  | [] => .ok (pd, [])
  | g :: gs =>
    match convolve g pd with
    | .error pd2 => .error pd2
    | .ok (pd2, flow) =>
      match runTimesteps pd2 gs with
      | .ok (pd3, flows) => .ok (pd3, flow :: flows)
      | .error pd3 => .error pd3

/-- The per-outlet data read from one unit-hydrograph file in
`make_point_dict` (lines 361-389): everything in an `Outlet` except the
ring, which `make_point_dict` itself initialises. -/
structure OutletSpec where
  y : Nat
  x : Nat
  lat : ℚ
  lon : ℚ
  time : List ℚ
  cells : List (Nat × Nat)
  uh : List (List ℚ)
deriving Repr, DecidableEq

/-- The construction data of an outlet (all fields except the ring). -/
def specOf (d : Outlet) : OutletSpec :=
  ⟨d.y, d.x, d.lat, d.lon, d.time, d.cells, d.uh⟩

/-- Registration of one outlet (lines 361-400).  No validation of any kind
is performed on L, K or the coefficients.  With no initial state the ring is
`np.zeros(len(d['uh']))`, i.e. a zero vector of length L (line 396); with an
initial state present the source leaves `d['ring']` unset until the restore
pass below, modelled as the placeholder `[]`. -/
def mkOutlet (s : OutletSpec) (withState : Bool) : Outlet :=
  ⟨s.y, s.x, s.lat, s.lon, s.time, s.cells, s.uh,
    if withState then [] else List.replicate s.uh.length 0⟩

/-- A snapshot in the array-format state layout: the outlet keys
(`yi`/`xi` variables of the state file) paired with the saved rings
(`state[:, i]`), in the order they appear in the file. -/
abbrev Snapshot := List ((Nat × Nat) × List ℚ)

/-- Overwriting one outlet's ring, `d['ring'] = state[:, i]`. -/
def setRing (d : Outlet) (r : List ℚ) : Outlet :=
  { d with ring := r }

/-- An outlet as built by `make_point_dict` when an initial state is
present: the source leaves `d['ring']` unset until the restore pass
(line 395 guards the zero-fill), modelled as the `[]` placeholder, which
the restore pass overwrites. -/
def placeRing (d : Outlet) : Outlet :=
  { d with ring := [] }

/-- One assignment `point_dict[key]['ring'] = state[:, i]` (line 415),
given that `key` is present: every outlet whose key matches gets the ring. -/
def restoreRing (pd : List Outlet) (k : Nat × Nat) (r : List ℚ) : List Outlet :=
  pd.map fun d => if outletKey d = k then setRing d r else d

/-- The array-path restore loop of `make_point_dict` (lines 411-415): for
each snapshot column in file order, write its ring into the outlet with the
matching key.  A key absent from the registry is a Python `KeyError`,
modelled as `none`.  Outlets never mentioned by the snapshot are not
touched (and not reported missing). -/
def restoreE (pd : List Outlet) : Snapshot → Option (List Outlet)
  | [] => some pd
  | (k, r) :: rest =>
    if pd.any (fun d => outletKey d = k) then restoreE (restoreRing pd k r) rest
    else none

/-- Embedding of `make_point_dict` (lines 346-430), array-format state:
build every outlet from its file data, then, if an initial state is given,
run the restore loop over it. -/
def makePointDict (specs : List OutletSpec) (initialState : Option Snapshot) :
    Option (List Outlet) :=
  let pd := specs.map fun s => mkOutlet s initialState.isSome
  match initialState with
  | none => some pd
  | some snap => restoreE pd snap

/-- The keyed snapshot contents produced by a state file written from
`out_state`: outlet keys with their current (post-rotation) rings, in
registry order (`out_state[:, i] = d['ring']`, line 476, keyed by
`out_dict['outlet_ys']`/`['outlet_xs']`). -/
def capture (pd : List Outlet) : Snapshot :=
  pd.map fun d => (outletKey d, d.ring)

/-- The state block of `convolve` when `return_state` is set (lines
447-457 and 475-478): `out_state` column i is outlet i's post-rotation
ring, and `out_state_time` is computed once, at loop index `i == 0`, as the
first outlet's entire lag-time axis plus the timestep's input time
(`d['time'] + time_dict['time_step']`).  With an empty registry the loop
body never runs and `out_state` is unbound (`none`). -/
def captureState (pd : List Outlet) (tstep : ℚ) :
    Option (List (List ℚ) × List ℚ) :=
  match pd with
  | [] => none
  | d0 :: _ => some (pd.map Outlet.ring, d0.time.map (· + tstep))

/-- The virtual snapshot timestamp as the spec's words describe it, for
comparison: the last processed input timestamp plus the captured outlet's
own base lag-offset (the first entry of that outlet's time axis). -/
def specOutletStamp (d : Outlet) (tstep : ℚ) : ℚ := tstep + d.time.headD 0

/-- The `(frequency, mode) → div` policy of `run` (lines 167-176), with the
flag recording whether the catch-all warning branch was taken.  Note the
source compares the daily row against the literal string `"dailyy"`
(line 172, with the comment `note the typo in dailyy`). -/
def divFreq (freq mode : String) : ℚ × Bool :=
  if freq = "hourly" ∧ mode = "instantaneous" then (1200, false)
  else if freq = "hourly" ∧ mode = "averaged" then (secsPerHour, false)
  else if freq = "dailyy" ∧ mode = "averaged" then (secsPerDay, false)
  else (secsPerHour, true)

/-- The depth-unit factor of `run` (lines 178-184): `mm → 1000`,
`cm → 100`, anything else the millimeter factor with a warning. -/
def depthFactor (units : String) : ℚ × Bool :=
  if units = "mm" then (mmPerMeter, false)
  else if units = "cm" then (cmPerMeter, false)
  else (mmPerMeter, true)

/-- The full divisor: the frequency/mode divisor further multiplied by the
depth-unit factor (`div *= mmPerMeter` etc., lines 178-184). -/
def computeDiv (freq mode units : String) : ℚ :=
  (divFreq freq mode).1 * (depthFactor units).1

/-- Elementwise grid sum, `Runoff + Baseflow` (line 192). -/
def combineGrids (r b : Grid) : Grid := List.zipWith addVec r b

/-- Elementwise division of a grid by the scalar divisor (line 192). -/
def scaleGrid (g : Grid) (div : ℚ) : Grid := g.map (List.map (· / div))

/-- One combined flux grid:
`flux = (Runoff + Baseflow) / div` (line 192). -/
def combinedFlux (runoff baseflow : Grid) (div : ℚ) : Grid :=
  scaleGrid (combineGrids runoff baseflow) div

/-- One flux file's routing-relevant content: its metadata attributes
(`output_frequency`, `output_mode`, `Runoff.units`) and the two raw grids. -/
structure FluxInput where
  freq : String
  mode : String
  units : String
  runoff : Grid
  baseflow : Grid
deriving Repr, DecidableEq

/-- The flux-combination behaviour of the `run` loop (lines 147-194): the
divisor is computed inside `if i == 1:` from the FIRST file's metadata only
and reused, unchanged, for every later file; later files' metadata is never
read. -/
def runFluxSeq : List FluxInput → List Grid
  | [] => []
  | f :: rest =>
    let div := computeDiv f.freq f.mode f.units
    (f :: rest).map fun x => combinedFlux x.runoff x.baseflow div

/-- The grid-area unit conversion of `init` (lines 79-99).  Each recognised
unit family multiplies by its fixed factor; in the unrecognised-units
branch the source prints a warning claiming to assume square meters but
never assigns `area`, so any later use raises `NameError` — modelled as
`none`. -/
def convertArea (units : String) (a : ℚ) : Option ℚ :=
  if units ∈ ["rad2", "radians2", "radian2", "rad^2", "radians^2", "rads^2",
      "radians squared", "square-radians"] then
    some (a * earthRadius * earthRadius)
  else if units ∈ ["m2", "m^2", "meters^2", "meters2", "square-meters",
      "meters squared"] then
    some a
  else if units ∈ ["km2", "km^2", "kilometers^2", "kilometers2",
      "square-kilometers", "kilometers squared"] then
    some (a * metersPerKm * metersPerKm)
  else if units ∈ ["mi2", "mi^2", "miles^2", "miles", "square-miles",
      "miles squared"] then
    some (a * metersPerMile * metersPerMile)
  else if units ∈ ["acres", "ac", "ac."] then
    some (a * meters2PerAcre)
  else
    none

/-- The outlet an `advanceOutlet` call leaves behind: the advanced outlet
on success, the untouched outlet when the gather raised. -/
def advancedOutlet (g : Grid) (d : Outlet) : Outlet :=
  match advanceOutlet g d with
  | some (d2, _) => d2
  | none => d

/-! Concrete outlets used by the closed theorems below. -/

/-- The outlet of the spec's concrete scenario: L = 3, K = 1, coefficients
`[0.5, 0.3, 0.2]`, single contributing cell `(0, 0)`, cold-start ring. -/
def outletC1 : Outlet :=
  ⟨0, 0, 45, 100, [0, 1, 2], [(0, 0)], [[1/2], [3/10], [1/5]], [0, 0, 0]⟩

/-- A two-lag outlet at key `(0, 0)` fed by cell `(0, 0)`. -/
def outA5 : Outlet := ⟨0, 0, 1, 2, [0, 1], [(0, 0)], [[1], [2]], [0, 0]⟩

/-- A two-lag outlet at key `(0, 1)` whose contributing cell `(0, 5)` lies
outside a 1-by-1 flux grid. -/
def outB5 : Outlet := ⟨0, 1, 3, 4, [5, 6], [(0, 5)], [[3], [4]], [0, 0]⟩

/-- A two-lag outlet at key `(0, 1)` fed by cell `(0, 1)`. -/
def outB3 : Outlet := ⟨0, 1, 3, 4, [5, 6], [(0, 1)], [[3], [4]], [0, 0]⟩

/-- One-lag outlet with key `(0, 0)`. -/
def outR8 : Outlet := ⟨0, 0, 0, 0, [], [], [[1]], [0]⟩

/-- One-lag outlet with base lag offset 0. -/
def out90 : Outlet := ⟨0, 0, 1, 1, [0], [(0, 0)], [[1]], [0]⟩

/-- One-lag outlet with base lag offset 100. -/
def out91 : Outlet := ⟨0, 1, 1, 1, [100], [(0, 1)], [[1]], [0]⟩

/-- Same outlet as `out91` except that its time axis starts at 555. -/
def out91b : Outlet := ⟨0, 1, 1, 1, [555], [(0, 1)], [[1]], [0]⟩

/-- An outlet-spec with L = 0 (empty coefficient matrix). -/
def specL0 : OutletSpec := ⟨0, 0, 0, 0, [], [], []⟩

/-! ## C1: the concrete scenario -/

/-- C1: for a single outlet with L = 3, K = 1, coefficients
`[0.5, 0.3, 0.2]` and contributing-cell flux 10 at timestep 0 and 0
thereafter, the advance operation emits exactly 5.0, 3.0, 2.0, 0.0 at
timesteps 0..3, and the ring immediately after timestep 0 is
`[3.0, 2.0, 0.0]`. -/
theorem claim_C1 :
    runTimesteps [outletC1] [[[10]], [[0]], [[0]], [[0]]] =
      .ok ([outletC1], [[5], [3], [2], [0]]) ∧
    runTimesteps [outletC1] [[[10]]] =
      .ok ([{ outletC1 with ring := [3, 2, 0] }], [[5]]) := by
  constructor <;>
    norm_num [runTimesteps, convolve, advanceOutlet, gatherFlux, lookupCell,
      outletC1, contrib, dotProd, addVec, shift, List.get?]

/-! ## C4: the flux-divisor policy table -/

/-- Reading one cell of the combined flux grid: when both raw grids hold
the cell, the combined grid holds `(runoff + baseflow) / div` there. -/
theorem lookupCell_combinedFlux {runoff baseflow : Grid} {y x : Nat} {r b dv : ℚ}
    (hr : lookupCell runoff y x = some r)
    (hb : lookupCell baseflow y x = some b) :
    lookupCell (combinedFlux runoff baseflow dv) y x = some ((r + b) / dv) := by
  unfold lookupCell at hr hb ⊢
  cases hy : runoff.get? y with
  | none => rw [hy] at hr; exact absurd hr (by simp)
  | some rowR =>
    rw [hy] at hr
    cases hby : baseflow.get? y with
    | none => rw [hby] at hb; exact absurd hb (by simp)
    | some rowB =>
      rw [hby] at hb
      have hz : (List.zipWith addVec runoff baseflow).get? y =
          some (addVec rowR rowB) :=
        (List.get?_zipWith_eq_some _ _ _ _ _).mpr ⟨rowR, rowB, hy, hby, rfl⟩
      have hcell : (addVec rowR rowB).get? x = some (r + b) :=
        (List.get?_zipWith_eq_some _ _ _ _ _).mpr ⟨r, b, hr, hb, rfl⟩
      simp only [combinedFlux, scaleGrid, combineGrids,
        List.get?_eq_getElem?] at hz hcell ⊢
      simp [List.getElem?_map, hz, hcell]

/-- C4 counterexample: the source matches the daily row against the literal
string `"dailyy"` (line 172), so the correctly spelled pair
`("daily", "averaged")` falls into the catch-all branch and yields divisor
3600 with a warning, not the 86400 the claim's table promises. -/
theorem claim_C4_counterexample :
    divFreq "daily" "averaged" = (3600, true) ∧
    divFreq "daily" "averaged" ≠ (86400, false) := by
  constructor <;> decide

/-- C4 amended: the policy table is keyed on the literal frequency strings
of the source — `("hourly", "instantaneous") → 1200`,
`("hourly", "averaged") → 3600`, `("dailyy", "averaged") → 86400` (the
source deliberately matches the misspelled string written by the upstream
model, line 172), and every other combination yields 3600 with a recorded
warning; each combined cell value equals `(runoff + baseflow) / div` with
`div` further scaled by the depth-unit factor. -/
theorem claim_C4_amended :
    divFreq "hourly" "instantaneous" = (1200, false) ∧
    divFreq "hourly" "averaged" = (3600, false) ∧
    divFreq "dailyy" "averaged" = (86400, false) ∧
    (∀ freq mode : String,
      ¬(freq = "hourly" ∧ mode = "instantaneous") →
      ¬(freq = "hourly" ∧ mode = "averaged") →
      ¬(freq = "dailyy" ∧ mode = "averaged") →
      divFreq freq mode = (3600, true)) ∧
    (∀ (runoff baseflow : Grid) (freq mode units : String) (y x : Nat) (r b : ℚ),
      lookupCell runoff y x = some r → lookupCell baseflow y x = some b →
      lookupCell (combinedFlux runoff baseflow (computeDiv freq mode units)) y x =
        some ((r + b) / ((divFreq freq mode).1 * (depthFactor units).1))) := by
  refine ⟨by decide, by decide, by decide, ?_, ?_⟩
  · intro freq mode h1 h2 h3
    simp [divFreq, h1, h2, h3, secsPerHour]
  · intro runoff baseflow freq mode units y x r b hr hb
    rw [computeDiv]
    exact lookupCell_combinedFlux hr hb

/-- C4 amended, witnessed at `("daily", "averaged", "mm")` on 1-by-1 grids. -/
theorem claim_C4_amended_witness :
    divFreq "daily" "averaged" = (3600, true) ∧
    lookupCell (combinedFlux [[7]] [[5]] (computeDiv "daily" "averaged" "mm")) 0 0 =
      some ((7 + 5) / ((divFreq "daily" "averaged").1 * (depthFactor "mm").1)) := by
  refine ⟨(claim_C4_amended.2.2.2.1 "daily" "averaged" ?_ ?_ ?_),
    (claim_C4_amended.2.2.2.2 [[7]] [[5]] "daily" "averaged" "mm" 0 0 7 5 ?_ ?_)⟩ <;>
    decide

/-! ## C6: registration never validates -/

/-- C6 counterexample: registering an outlet whose coefficient matrix is
empty (L = 0, K = 0) succeeds — `make_point_dict` contains no validation at
all, so the promised `InvalidUnitHydrograph` failure never happens. -/
theorem claim_C6_counterexample :
    makePointDict [specL0] none = some [⟨0, 0, 0, 0, [], [], [], []⟩] := by
  decide

/-- C6 amended: registration performs no validation whatsoever — it
succeeds for every list of outlet specs (L ≤ 0, K ≤ 0 included; `ℚ` has no
non-finite values to model) — and when no initial state is supplied each
outlet's ring is zero-initialized with length L, the row count of its
coefficient matrix. -/
theorem claim_C6_amended (specs : List OutletSpec) :
    makePointDict specs none = some (specs.map (mkOutlet · false)) ∧
    ∀ s ∈ specs, (mkOutlet s false).ring = List.replicate s.uh.length 0 ∧
      (mkOutlet s false).ring.length = s.uh.length := by
  refine ⟨rfl, ?_⟩
  intro s _
  simp [mkOutlet]

/-- C6 amended, witnessed on the L = 0 spec. -/
theorem claim_C6_amended_witness :
    makePointDict [specL0] none = some ([specL0].map (mkOutlet · false)) ∧
    (mkOutlet specL0 false).ring = List.replicate specL0.uh.length 0 := by
  refine ⟨(claim_C6_amended [specL0]).1,
    ((claim_C6_amended [specL0]).2 specL0 ?_).1⟩
  simp

/-! ## C7: area-unit conversion -/

/-- C7: the recognized area units convert by the fixed table, but an
unrecognized unit does NOT continue as square meters: the source prints the
warning claiming to assume square meters and then never assigns `area`
(lines 97-99), so the run dies with `NameError` at the next use — a hard
failure, contradicting the claim. -/
theorem claim_C7_bug :
    convertArea "hectares" 2 = none ∧
    convertArea "rad2" 3 = some (3 * 6371220 * 6371220) ∧
    convertArea "m2" 2 = some 2 ∧
    convertArea "km2" 2 = some 2000000 ∧
    convertArea "mi2" 1 = some (160934 / 100 * (160934 / 100)) ∧
    convertArea "acres" 1 = some (4046856 / 1000) := by
  refine ⟨by decide, ?_, by decide, ?_, ?_, ?_⟩ <;>
    norm_num +decide [convertArea, earthRadius, metersPerKm, metersPerMile,
      meters2PerAcre]

/-! ## C9: the snapshot's virtual timestamp -/

/-- C9 counterexample: the virtual timestamp recorded with a state capture
is computed once, at loop index 0, from the FIRST outlet's time axis
(lines 449-454); it does not depend on the outlet whose ring is captured.
Two registries differing only in the second outlet's time axis (base
offsets 100 and 555) record the identical timestamp `[7]`, although the
claim's per-outlet formula gives 107 and 562 for the second outlet. -/
theorem claim_C9_counterexample :
    captureState [out90, out91] 7 = captureState [out90, out91b] 7 ∧
    captureState [out90, out91] 7 = some ([[0], [0]], [7]) ∧
    specOutletStamp out91 7 = 107 ∧
    specOutletStamp out91b 7 = 562 ∧
    ((107 : ℚ) ≠ 7 ∧ (562 : ℚ) ≠ 7) := by
  refine ⟨?_, ?_, ?_, ?_, by decide, by decide⟩ <;>
    norm_num [captureState, specOutletStamp, out90, out91, out91b]

/-- C9 amended: a state capture records, for each outlet, its
post-rotation ring, together with ONE shared virtual time axis computed
from the first outlet in registry order — that outlet's entire lag-time
axis plus the last processed input timestamp; the recorded timestamp is the
same for every captured outlet and ignores every outlet after the first. -/
theorem claim_C9_amended (d0 : Outlet) (rest rest' : List Outlet) (tstep : ℚ)
    (h : rest.map Outlet.ring = rest'.map Outlet.ring) :
    captureState (d0 :: rest) tstep =
      some (d0.ring :: rest.map Outlet.ring, d0.time.map (· + tstep)) ∧
    captureState (d0 :: rest) tstep = captureState (d0 :: rest') tstep := by
  constructor <;> simp [captureState, h]

/-- C9 amended, witnessed on the two-outlet registry with lag offsets 0
and 100. -/
theorem claim_C9_amended_witness :
    captureState [out90, out91] 7 =
      some (out90.ring :: [out91].map Outlet.ring, out90.time.map (· + 7)) ∧
    captureState [out90, out91] 7 = captureState [out90, out91b] 7 :=
  claim_C9_amended out90 [out91] [out91b] 7 (by decide)

/-! ## C10: the divisor policy is evaluated once, on the first flux input -/

/-- C10: the run loop computes the `(frequency, mode, depth-units)` divisor
inside `if i == 1:`, i.e. from the first flux input only, and reuses it for
every later timestep; the combined flux sequence is unchanged under any
alteration of the later inputs' metadata, and every timestep is scaled by
the first input's divisor. -/
theorem claim_C10 (f f' : FluxInput) (rest rest' : List FluxInput)
    (hfreq : f.freq = f'.freq) (hmode : f.mode = f'.mode)
    (hunits : f.units = f'.units) (hrun : f.runoff = f'.runoff)
    (hbase : f.baseflow = f'.baseflow)
    (hgrids : rest.map (fun z => (z.runoff, z.baseflow)) =
      rest'.map (fun z => (z.runoff, z.baseflow))) :
    runFluxSeq (f :: rest) = runFluxSeq (f' :: rest') ∧
    runFluxSeq (f :: rest) = (f :: rest).map
      (fun z => combinedFlux z.runoff z.baseflow
        (computeDiv f.freq f.mode f.units)) := by
  have hdiv : computeDiv f.freq f.mode f.units =
      computeDiv f'.freq f'.mode f'.units := by rw [hfreq, hmode, hunits]
  have key : ∀ (l : List FluxInput) (dv : ℚ),
      l.map (fun z => combinedFlux z.runoff z.baseflow dv) =
      (l.map fun z => (z.runoff, z.baseflow)).map
        (fun p => combinedFlux p.1 p.2 dv) := by
    intro l dv
    rw [List.map_map]
    rfl
  refine ⟨?_, rfl⟩
  show (f :: rest).map (fun z => combinedFlux z.runoff z.baseflow
      (computeDiv f.freq f.mode f.units)) =
    (f' :: rest').map (fun z => combinedFlux z.runoff z.baseflow
      (computeDiv f'.freq f'.mode f'.units))
  rw [List.map_cons, List.map_cons, hdiv, hrun, hbase, key, key, hgrids]

/-- C10, witnessed: two runs whose later file carries different metadata
(`("dailyy", "averaged", "cm")` against `("hourly", "instantaneous", "x")`)
produce the same combined flux grids. -/
theorem claim_C10_witness :
    runFluxSeq [⟨"hourly", "averaged", "mm", [[1]], [[2]]⟩,
        ⟨"dailyy", "averaged", "cm", [[3]], [[4]]⟩] =
      runFluxSeq [⟨"hourly", "averaged", "mm", [[1]], [[2]]⟩,
        ⟨"hourly", "instantaneous", "x", [[3]], [[4]]⟩] :=
  (claim_C10 ⟨"hourly", "averaged", "mm", [[1]], [[2]]⟩
    ⟨"hourly", "averaged", "mm", [[1]], [[2]]⟩
    [⟨"dailyy", "averaged", "cm", [[3]], [[4]]⟩]
    [⟨"hourly", "instantaneous", "x", [[3]], [[4]]⟩]
    rfl rfl rfl rfl rfl (by decide)).1

/-! ## C5: a failing timestep is not atomic -/

/-- C5 counterexample: with outlet `outA5` (cell `(0, 0)`) registered
before outlet `outB5` (whose cell `(0, 5)` lies outside the 1-by-1 grid
`[[2]]`), the timestep fails at `outB5`, but `outA5`'s ring has already
been updated from `[0, 0]` to `[4, 0]` — some rings updated, others not,
refuting the claimed atomicity. -/
theorem claim_C5_counterexample :
    convolve [[2]] [outA5, outB5] =
      .error [{ outA5 with ring := [4, 0] }, outB5] ∧
    ({ outA5 with ring := [4, 0] }).ring ≠ outA5.ring := by
  constructor
  · norm_num [convolve, advanceOutlet, gatherFlux, lookupCell, outA5, outB5,
      contrib, dotProd, addVec, shift, List.get?]
  · decide

/-- C5 amended: a flux/index mismatch is detected per outlet, inside the
per-outlet loop: the timestep aborts at the first outlet whose gather
fails, leaving every earlier outlet's ring already fully advanced and the
failing outlet and all later outlets untouched.  A failing timestep can
therefore leave some rings updated and others not; only the failing
outlet's own ring is guaranteed unmutated (the gather raises before its
ring accumulation). -/
theorem claim_C5_amended (g : Grid) (pre : List Outlet) (d : Outlet)
    (post : List Outlet) (hpre : ∀ z ∈ pre, (advanceOutlet g z).isSome)
    (hd : advanceOutlet g d = none) :
    convolve g (pre ++ d :: post) =
      .error (pre.map (advancedOutlet g) ++ d :: post) := by
  induction pre with
  | nil => simp [convolve, hd]
  | cons p ps ih =>
    obtain ⟨⟨p2, e⟩, hpe⟩ := Option.isSome_iff_exists.mp (hpre p (by simp))
    have ihh := ih fun z hz => hpre z (List.mem_cons_of_mem _ hz)
    simp only [List.cons_append, convolve, hpe, ihh, List.map_cons,
      advancedOutlet, List.append_eq]

/-- C5 amended, witnessed on the two-outlet registry of the
counterexample. -/
theorem claim_C5_amended_witness :
    (∀ z ∈ [outA5], (advanceOutlet [[2]] z).isSome) ∧
    advanceOutlet [[2]] outB5 = none ∧
    convolve [[2]] ([outA5] ++ outB5 :: []) =
      .error ([outA5].map (advancedOutlet [[2]]) ++ outB5 :: []) := by
  have h1 : ∀ z ∈ [outA5], (advanceOutlet [[2]] z).isSome := by
    intro z hz
    rw [List.mem_singleton.mp hz]
    norm_num [advanceOutlet, gatherFlux, lookupCell, outA5, contrib, dotProd,
      addVec, List.get?]
  have h2 : advanceOutlet [[2]] outB5 = none := by decide
  exact ⟨h1, h2, claim_C5_amended [[2]] [outA5] outB5 [] h1 h2⟩

/-! ## C8: restore semantics -/

/-- The per-element update of `restoreRing` never changes an outlet's key. -/
theorem outletKey_setRing (d : Outlet) (k : Nat × Nat) (r : List ℚ) :
    outletKey (if outletKey d = k then setRing d r else d) = outletKey d := by
  split <;> rfl

/-- The per-element update of `restoreRing` never changes an outlet's
construction data. -/
theorem specOf_setRing (d : Outlet) (k : Nat × Nat) (r : List ℚ) :
    specOf (if outletKey d = k then setRing d r else d) = specOf d := by
  split <;> rfl

/-- A key is matched in `restoreRing pd k r` exactly when it is matched in
`pd`. -/
theorem exists_key_restoreRing (pd : List Outlet) (k : Nat × Nat)
    (r : List ℚ) (k' : Nat × Nat) :
    (∃ d ∈ restoreRing pd k r, outletKey d = k') ↔
      ∃ d ∈ pd, outletKey d = k' := by
  unfold restoreRing
  constructor
  · rintro ⟨d, hd, hk⟩
    obtain ⟨z, hz, rfl⟩ := List.mem_map.mp hd
    exact ⟨z, hz, by rwa [outletKey_setRing] at hk⟩
  · rintro ⟨z, hz, hk⟩
    refine ⟨_, List.mem_map_of_mem _ hz, ?_⟩
    rwa [outletKey_setRing]

/-- The restore loop succeeds exactly when every snapshot key has a
matching registered outlet; an outlet missing from the snapshot never makes
it fail. -/
theorem restoreE_isSome_iff (snap : Snapshot) :
    ∀ pd : List Outlet,
      (restoreE pd snap).isSome = true ↔
        ∀ kr ∈ snap, ∃ d ∈ pd, outletKey d = kr.1 := by
  induction snap with
  | nil =>
    intro pd
    simp [restoreE]
  | cons kr rest ih =>
    intro pd
    obtain ⟨k, r⟩ := kr
    by_cases hc : ∃ d ∈ pd, outletKey d = k
    · have hany : (pd.any fun d => outletKey d = k) = true := by
        rw [List.any_eq_true]
        obtain ⟨d, hd, hk⟩ := hc
        exact ⟨d, hd, by simp [hk]⟩
      simp only [restoreE, if_pos hany, ih]
      constructor
      · intro h kr2 hm
        rcases List.mem_cons.mp hm with h1 | h2
        · subst h1
          exact hc
        · exact (exists_key_restoreRing pd k r kr2.1).mp (h kr2 h2)
      · intro h kr2 hm
        exact (exists_key_restoreRing pd k r kr2.1).mpr
          (h kr2 (List.mem_cons_of_mem _ hm))
    · have hany : (pd.any fun d => outletKey d = k) = false := by
        rw [List.any_eq_false]
        intro d hd hdk
        exact hc ⟨d, hd, by simpa using hdk⟩
      simp only [restoreE, hany, Bool.false_eq_true, if_false,
        Option.isSome_none]
      constructor
      · intro h
        cases h
      · intro h
        exact absurd (h (k, r) (List.mem_cons_self _ _)) hc

/-- A successful restore changes only rings: the construction data of the
registry is untouched. -/
theorem restoreE_specOf (snap : Snapshot) :
    ∀ pd pd2 : List Outlet, restoreE pd snap = some pd2 →
      pd2.map specOf = pd.map specOf := by
  induction snap with
  | nil =>
    intro pd pd2 h
    simp only [restoreE, Option.some_inj] at h
    rw [← h]
  | cons kr rest ih =>
    intro pd pd2 h
    obtain ⟨k, r⟩ := kr
    simp only [restoreE] at h
    split at h
    · have h2 := ih (restoreRing pd k r) pd2 h
      rw [h2]
      unfold restoreRing
      rw [List.map_map]
      exact List.map_congr_left fun d _ => specOf_setRing d k r
    · exact absurd h (by simp)

/-- C8 counterexample: restore does NOT iterate the registry looking up
snapshot entries — it iterates the snapshot.  A snapshot entry whose key
`(1, 1)` matches no registered outlet makes the restore fail (`KeyError`)
instead of being ignored, and a registry outlet with no snapshot entry
(empty snapshot) causes no failure at all instead of `MissingState`. -/
theorem claim_C8_counterexample :
    restoreE [outR8] [((0, 0), [1]), ((1, 1), [5])] = none ∧
    restoreE [outR8] [((0, 0), [1])] = some [{ outR8 with ring := [1] }] ∧
    restoreE [outR8] [] = some [outR8] := by
  refine ⟨?_, ?_, ?_⟩ <;> decide

/-- C8 amended: restore iterates the snapshot's entries, each entry
overwriting the ring of the matching registered outlet; it fails
(`KeyError`) exactly when some snapshot entry's key matches no registered
outlet, so an unmatched snapshot entry is fatal rather than ignored, and an
outlet with no matching snapshot entry causes no failure and is simply
left unrestored; a successful restore changes nothing but rings. -/
theorem claim_C8_amended (pd : List Outlet) (snap : Snapshot) :
    ((restoreE pd snap).isSome = true ↔
      ∀ kr ∈ snap, ∃ d ∈ pd, outletKey d = kr.1) ∧
    (∀ pd2, restoreE pd snap = some pd2 → pd2.map specOf = pd.map specOf) :=
  ⟨restoreE_isSome_iff snap pd, fun pd2 h => restoreE_specOf snap pd pd2 h⟩

/-- C8 amended, witnessed: a one-outlet registry and a snapshot holding
exactly that key restores successfully. -/
theorem claim_C8_amended_witness :
    (restoreE [outR8] [((0, 0), [2])]).isSome = true :=
  (claim_C8_amended [outR8] [((0, 0), [2])]).1.mpr (by decide)

/-! ## C2: conservation under a unit impulse -/

/-- Rotating a nonempty ring left by one: the head moves to the end. -/
theorem shift_one (a : ℚ) (l : List ℚ) : shift (a :: l) 1 = l ++ [a] := by
  cases l with
  | nil => simp [shift]
  | cons b t =>
    have h1 : 1 % (a :: b :: t).length = 1 := by
      apply Nat.mod_eq_of_lt
      simp
    simp [shift, h1]

/-- The K = 1 contribution: one dot product per lag row. -/
theorem contrib_single (v : ℚ) (C : List ℚ) :
    contrib [v] (C.map fun c => [c]) = C.map fun c => v * c := by
  unfold contrib
  rw [List.map_map]
  exact List.map_congr_left fun c _ => by simp [dotProd]

/-- Scaling the coefficients by a zero flux gives the zero vector. -/
theorem map_zero_mul (C : List ℚ) :
    (C.map fun c => 0 * c) = List.replicate C.length 0 := by
  induction C with
  | nil => rfl
  | cons a t ih => simp [List.replicate_succ, ih]

/-- Accumulating a zero contribution leaves the ring unchanged. -/
theorem addVec_replicate_zero (r : List ℚ) :
    ∀ n, r.length ≤ n → addVec r (List.replicate n 0) = r := by
  induction r with
  | nil => intro n _; simp [addVec]
  | cons a t ih =>
    intro n hn
    cases n with
    | zero => simp at hn
    | succ m =>
      simp only [List.replicate_succ, addVec, List.zipWith_cons_cons, add_zero]
      exact congrArg (a :: ·) (ih m (Nat.le_of_succ_le_succ hn))

/-- Accumulating a contribution into an all-zero ring yields the
contribution. -/
theorem addVec_zeros_left (l : List ℚ) :
    addVec (List.replicate l.length 0) l = l := by
  induction l with
  | nil => rfl
  | cons a t ih =>
    simp only [List.length_cons, List.replicate_succ, addVec,
      List.zipWith_cons_cons, zero_add]
    exact congrArg (a :: ·) ih

/-- A one-outlet registry advances by one step of `convolve`. -/
theorem convolve_single {g : Grid} {d d2 : Outlet} {e : ℚ}
    (h : advanceOutlet g d = some (d2, e)) : convolve g [d] = .ok ([d2], [e]) := by
  simp [convolve, h]

/-- Peeling one successful timestep off `runTimesteps`. -/
theorem runTimesteps_cons_ok {pd pd2 pd3 : List Outlet} {g : Grid}
    {gs : List Grid} {flow : List ℚ} {flows : List (List ℚ)}
    (h1 : convolve g pd = .ok (pd2, flow))
    (h2 : runTimesteps pd2 gs = .ok (pd3, flows)) :
    runTimesteps pd (g :: gs) = .ok (pd3, flow :: flows) := by
  simp [runTimesteps, h1, h2]

/-- Zero-input evolution of a single K = 1 outlet: over `gs.length ≤ L`
timesteps of zero flux at the contributing cell, the outlet emits the first
`gs.length` ring entries in order, and the ring shifts down with zeros
filling in from the back. -/
theorem zeroRun (y x cy cx : Nat) (lat lon : ℚ) (ta : List ℚ) (C : List ℚ) :
    ∀ (gs : List Grid) (r : List ℚ),
      (∀ g ∈ gs, lookupCell g cy cx = some 0) →
      gs.length ≤ r.length → r.length = C.length →
      runTimesteps [⟨y, x, lat, lon, ta, [(cy, cx)], C.map fun c => [c], r⟩]
          gs =
        .ok ([⟨y, x, lat, lon, ta, [(cy, cx)], C.map fun c => [c],
            r.drop gs.length ++ List.replicate gs.length 0⟩],
          (r.take gs.length).map fun e => [e]) := by
  intro gs
  induction gs with
  | nil =>
    intro r _ _ _
    simp [runTimesteps]
  | cons g gs ih =>
    intro r hz hlen hrC
    obtain ⟨a, t, rfl⟩ : ∃ a t, r = a :: t := by
      cases r with
      | nil => simp at hlen
      | cons a t => exact ⟨_, _, rfl⟩
    have hle : gs.length ≤ t.length := by
      simp only [List.length_cons] at hlen
      omega
    have hg : lookupCell g cy cx = some 0 := hz g (List.mem_cons_self _ _)
    have hgather : gatherFlux g [(cy, cx)] = some [0] := by
      simp [gatherFlux, hg]
    have hring1 : addVec (a :: t) (contrib [0] (C.map fun c => [c])) = a :: t := by
      rw [contrib_single, map_zero_mul]
      exact addVec_replicate_zero _ _ (le_of_eq hrC)
    have hshift : shift ((a :: t).set 0 0) 1 = t ++ [0] := by
      have hset : (a :: t).set 0 0 = 0 :: t := rfl
      rw [hset, shift_one]
    have hadv : advanceOutlet g
        ⟨y, x, lat, lon, ta, [(cy, cx)], C.map fun c => [c], a :: t⟩ =
        some (⟨y, x, lat, lon, ta, [(cy, cx)], C.map fun c => [c],
          t ++ [0]⟩, a) := by
      simp only [advanceOutlet, hgather, hring1, ← hshift]
      rfl
    have hrec := ih (t ++ [0])
      (fun g2 hg2 => hz g2 (List.mem_cons_of_mem _ hg2))
      (by
        simp only [List.length_append, List.length_cons, List.length_nil]
        omega)
      (by
        simp only [List.length_append, List.length_cons,
          List.length_nil] at hrC ⊢
        omega)
    rw [runTimesteps_cons_ok (convolve_single hadv) hrec]
    have hdrop : (t ++ [0]).drop gs.length ++ List.replicate gs.length 0 =
        (a :: t).drop (g :: gs).length ++ List.replicate (g :: gs).length 0 := by
      rw [List.drop_append_of_le_length hle]
      simp [List.replicate_succ, List.append_assoc]
    have htake : (a :: t).take (g :: gs).length =
        a :: (t ++ [0]).take gs.length := by
      rw [List.take_append_of_le_length hle]
      rfl
    rw [hdrop, htake]
    simp

/-- C2: for every K = 1 outlet with coefficient column `C` (L = `C.length`
rows), a cold-start ring, a flux of 1 at its contributing cell at timestep
0 and 0 thereafter, the run emits exactly the coefficients `C` in order
over timesteps `0..L-1` (so their sum is exactly `C.sum = S`, with no
leakage and no double-counting), and the ring drains back to all zeros. -/
theorem claim_C2 (y x cy cx : Nat) (lat lon : ℚ) (ta : List ℚ) (C : List ℚ)
    (g0 : Grid) (gs : List Grid) (hL : 0 < C.length)
    (h1 : lookupCell g0 cy cx = some 1)
    (hz : ∀ g ∈ gs, lookupCell g cy cx = some 0)
    (hn : gs.length = C.length - 1) :
    runTimesteps [⟨y, x, lat, lon, ta, [(cy, cx)], C.map fun c => [c],
        List.replicate C.length 0⟩] (g0 :: gs) =
      .ok ([⟨y, x, lat, lon, ta, [(cy, cx)], C.map fun c => [c],
          List.replicate C.length 0⟩], C.map fun e => [e]) ∧
    ((C.map fun e => [e]).map List.sum).sum = C.sum := by
  obtain ⟨c0, C', rfl⟩ : ∃ c0 C', C = c0 :: C' := by
    cases C with
    | nil => simp at hL
    | cons c0 C' => exact ⟨_, _, rfl⟩
  constructor
  · have hgather : gatherFlux g0 [(cy, cx)] = some [1] := by
      simp [gatherFlux, h1]
    have hring1 : addVec (List.replicate (c0 :: C').length 0)
        (contrib [1] ((c0 :: C').map fun c => [c])) = c0 :: C' := by
      rw [contrib_single]
      simp only [one_mul, List.map_id_fun', List.map_id]
      have := addVec_zeros_left (c0 :: C')
      simpa using this
    have hshift : shift ((c0 :: C').set 0 0) 1 = C' ++ [0] := by
      have hset : (c0 :: C').set 0 0 = 0 :: C' := rfl
      rw [hset, shift_one]
    have hadv : advanceOutlet g0
        ⟨y, x, lat, lon, ta, [(cy, cx)], (c0 :: C').map fun c => [c],
          List.replicate (c0 :: C').length 0⟩ =
        some (⟨y, x, lat, lon, ta, [(cy, cx)], (c0 :: C').map fun c => [c],
          C' ++ [0]⟩, c0) := by
      simp only [advanceOutlet, hgather, hring1, ← hshift]
      rfl
    have hn2 : gs.length = C'.length := by
      simpa using hn
    have hrec := zeroRun y x cy cx lat lon ta (c0 :: C') gs (C' ++ [0]) hz
      (by
        simp only [List.length_append, List.length_cons, List.length_nil]
        omega)
      (by simp)
    rw [runTimesteps_cons_ok (convolve_single hadv) hrec]
    have hdrop : (C' ++ [0]).drop gs.length ++ List.replicate gs.length 0 =
        List.replicate (c0 :: C').length 0 := by
      rw [hn2, List.drop_append_of_le_length (le_refl _)]
      simp [List.replicate_succ]
    have htake : (C' ++ [0]).take gs.length = C' := by
      rw [hn2, List.take_append_of_le_length (le_refl _)]
      exact List.take_length C'
    rw [hdrop, htake]
    simp
  · rw [List.map_map]
    have hcomp : (List.sum ∘ fun e : ℚ => [e]) = id := by
      funext e
      simp
    rw [hcomp, List.map_id]

/-- C2, witnessed: `C = [1/2, 1/3]`, cell `(0, 0)`, impulse grid `[[1]]`
then one zero grid. -/
theorem claim_C2_witness :
    runTimesteps [⟨0, 0, 1, 1, [0, 1], [(0, 0)],
        [1/2, 1/3].map fun c => [c], List.replicate ([1/2, 1/3] : List ℚ).length 0⟩]
        ([[1]] :: [[[0]]]) =
      .ok ([⟨0, 0, 1, 1, [0, 1], [(0, 0)],
          [1/2, 1/3].map fun c => [c],
          List.replicate ([1/2, 1/3] : List ℚ).length 0⟩],
        ([1/2, 1/3] : List ℚ).map fun e => [e]) ∧
    ((([1/2, 1/3] : List ℚ).map fun e => [e]).map List.sum).sum =
      ([1/2, 1/3] : List ℚ).sum := by
  refine claim_C2 0 0 0 0 1 1 [0, 1] [1/2, 1/3] [[1]] [[[0]]] ?_ ?_ ?_ ?_
  · decide
  · decide
  · intro g hg
    rw [List.mem_singleton.mp hg]
    decide
  · decide

/-! ## C3: restart equivalence -/

/-- Characterisation of a successful `advanceOutlet` call. -/
theorem advanceOutlet_some {g : Grid} {d d2 : Outlet} {e : ℚ}
    (h : advanceOutlet g d = some (d2, e)) :
    ∃ fv, gatherFlux g d.cells = some fv ∧
      d2 = { d with
        ring := shift ((addVec d.ring (contrib fv d.uh)).set 0 0) 1 } := by
  unfold advanceOutlet at h
  cases hg : gatherFlux g d.cells with
  | none =>
    rw [hg] at h
    cases h
  | some fv =>
    rw [hg] at h
    simp only at h
    cases hr : (addVec d.ring (contrib fv d.uh)).get? 0 with
    | none =>
      rw [hr] at h
      cases h
    | some e2 =>
      rw [hr] at h
      simp only [Option.some_inj, Prod.mk.injEq] at h
      exact ⟨fv, rfl, h.1.symm⟩

/-- Advancing an outlet changes only its ring. -/
theorem specOf_advanceOutlet {g : Grid} {d d2 : Outlet} {e : ℚ}
    (h : advanceOutlet g d = some (d2, e)) : specOf d2 = specOf d := by
  obtain ⟨fv, _, h2⟩ := advanceOutlet_some h
  rw [h2]
  rfl

/-- A successful `convolve` timestep changes only rings. -/
theorem convolve_ok_specOf {g : Grid} :
    ∀ {pd pd2 : List Outlet} {es : List ℚ},
      convolve g pd = .ok (pd2, es) → pd2.map specOf = pd.map specOf := by
  intro pd
  induction pd with
  | nil =>
    intro pd2 es h
    simp only [convolve, Except.ok.injEq, Prod.mk.injEq] at h
    rw [← h.1]
  | cons d rest ih =>
    intro pd2 es h
    simp only [convolve] at h
    cases hadv : advanceOutlet g d with
    | none =>
      rw [hadv] at h
      cases h
    | some pr =>
      obtain ⟨dd, e⟩ := pr
      rw [hadv] at h
      cases hc : convolve g rest with
      | error r2 =>
        rw [hc] at h
        cases h
      | ok pr2 =>
        obtain ⟨rest2, es2⟩ := pr2
        rw [hc] at h
        simp only [Except.ok.injEq, Prod.mk.injEq] at h
        rw [← h.1, List.map_cons, List.map_cons,
          specOf_advanceOutlet hadv, ih hc]

/-- A successful run changes only rings. -/
theorem runTimesteps_ok_specOf {gs : List Grid} :
    ∀ {pd pd2 : List Outlet} {flows : List (List ℚ)},
      runTimesteps pd gs = .ok (pd2, flows) →
      pd2.map specOf = pd.map specOf := by
  induction gs with
  | nil =>
    intro pd pd2 flows h
    simp only [runTimesteps, Except.ok.injEq, Prod.mk.injEq] at h
    rw [← h.1]
  | cons g gs ih =>
    intro pd pd2 flows h
    simp only [runTimesteps] at h
    cases hc : convolve g pd with
    | error p =>
      rw [hc] at h
      cases h
    | ok pr =>
      obtain ⟨pmid, flow⟩ := pr
      simp only [hc] at h
      cases hr : runTimesteps pmid gs with
      | error p =>
        rw [hr] at h
        cases h
      | ok pr2 =>
        obtain ⟨pend, flows2⟩ := pr2
        rw [hr] at h
        simp only [Except.ok.injEq, Prod.mk.injEq] at h
        rw [← h.1]
        exact (ih hr).trans (convolve_ok_specOf hc)

/-- An uninterrupted successful run decomposes at any timestep boundary. -/
theorem runTimesteps_append {gs1 : List Grid} :
    ∀ {pd pdEnd : List Outlet} {gs2 : List Grid} {flows : List (List ℚ)},
      runTimesteps pd (gs1 ++ gs2) = .ok (pdEnd, flows) →
      ∃ pdMid flows1 flows2,
        runTimesteps pd gs1 = .ok (pdMid, flows1) ∧
        runTimesteps pdMid gs2 = .ok (pdEnd, flows2) ∧
        flows = flows1 ++ flows2 := by
  induction gs1 with
  | nil =>
    intro pd pdEnd gs2 flows h
    exact ⟨pd, [], flows, rfl, h, rfl⟩
  | cons g gs1 ih =>
    intro pd pdEnd gs2 flows h
    rw [List.cons_append] at h
    simp only [runTimesteps] at h
    cases hc : convolve g pd with
    | error p =>
      rw [hc] at h
      cases h
    | ok pr =>
      obtain ⟨pmid, flow⟩ := pr
      simp only [hc] at h
      cases hr : runTimesteps pmid (gs1 ++ gs2) with
      | error p =>
        rw [hr] at h
        cases h
      | ok pr2 =>
        obtain ⟨pend2, frest⟩ := pr2
        rw [hr] at h
        simp only [Except.ok.injEq, Prod.mk.injEq] at h
        obtain ⟨pm, f1, f2, ha, hb, hcat⟩ := ih hr
        refine ⟨pm, flow :: f1, f2, runTimesteps_cons_ok hc ha, ?_, ?_⟩
        · rw [h.1] at hb
          exact hb
        · rw [← h.2, hcat, List.cons_append]

/-- Rebuilding an outlet from its construction data with an initial state
pending gives the outlet with the placeholder ring. -/
theorem mkOutlet_specOf_true (d : Outlet) :
    mkOutlet (specOf d) true = placeRing d := by
  cases d
  rfl

/-- Overwriting the placeholder ring with the outlet's own ring restores
the outlet. -/
theorem setRing_placeRing (d : Outlet) (r : List ℚ) :
    setRing (placeRing d) r = setRing d r := by
  cases d
  rfl

/-- Writing back an outlet's own ring is the identity. -/
theorem setRing_ring (d : Outlet) : setRing d d.ring = d := by
  cases d
  rfl

/-- Placeholders keep their keys. -/
theorem outletKey_placeRing (d : Outlet) :
    outletKey (placeRing d) = outletKey d := rfl

/-- The restore loop over a captured snapshot rebuilds exactly the captured
registry, one snapshot entry at a time: `A` is the already-restored prefix,
whose keys are disjoint from the still-pending outlets. -/
theorem restoreE_capture (pd : List Outlet) :
    ∀ A : List Outlet,
      (pd.map outletKey).Nodup →
      (∀ d ∈ pd, ∀ a2 ∈ A, outletKey a2 ≠ outletKey d) →
      restoreE (A ++ pd.map placeRing) (capture pd) = some (A ++ pd) := by
  induction pd with
  | nil =>
    intro A _ _
    simp [capture, restoreE]
  | cons d rest ih =>
    intro A hnd hdisj
    rw [List.map_cons, List.nodup_cons] at hnd
    have hany : ((A ++ placeRing d :: rest.map placeRing).any
        fun z => outletKey z = outletKey d) = true := by
      rw [List.any_eq_true]
      exact ⟨placeRing d, by simp, by simp [outletKey_placeRing]⟩
    have hA : A.map (fun z => if outletKey z = outletKey d
        then setRing z d.ring else z) = A := by
      rw [List.map_congr_left fun a2 ha2 => if_neg
        (hdisj d (List.mem_cons_self _ _) a2 ha2)]
      exact List.map_id A
    have hm : (if outletKey (placeRing d) = outletKey d
        then setRing (placeRing d) d.ring else placeRing d) = d := by
      rw [if_pos (outletKey_placeRing d), setRing_placeRing, setRing_ring]
    have hr2 : (rest.map placeRing).map (fun z => if outletKey z = outletKey d
        then setRing z d.ring else z) = rest.map placeRing := by
      rw [List.map_map]
      refine List.map_congr_left fun d2 hd2 => ?_
      have hne : outletKey (placeRing d2) ≠ outletKey d := by
        rw [outletKey_placeRing]
        intro hEq
        exact hnd.1 (hEq ▸ List.mem_map_of_mem outletKey hd2)
      simp only [Function.comp]
      rw [if_neg hne]
    have hstep : restoreRing (A ++ placeRing d :: rest.map placeRing)
        (outletKey d) d.ring = A ++ d :: rest.map placeRing := by
      unfold restoreRing
      rw [List.map_append, List.map_cons, hA, hm, hr2]
    have hrec := ih (A ++ [d]) hnd.2
      (by
        intro d2 hd2 a2 ha2
        rcases List.mem_append.mp ha2 with hA2 | hA2
        · exact hdisj d2 (List.mem_cons_of_mem _ hd2) a2 hA2
        · rw [List.mem_singleton.mp hA2]
          intro hEq
          exact hnd.1 (hEq ▸ List.mem_map_of_mem outletKey hd2))
    simp only [capture, List.map_cons, restoreE, if_pos hany, hstep]
    rw [show A ++ d :: rest.map placeRing =
        (A ++ [d]) ++ rest.map placeRing by simp]
    rw [show (rest.map fun d2 => (outletKey d2, d2.ring)) = capture rest
      from rfl]
    rw [hrec]
    simp

/-- Restoring a captured snapshot into the placeholder registry rebuilds
the captured registry exactly. -/
theorem restore_fresh (pd : List Outlet) (hnd : (pd.map outletKey).Nodup) :
    restoreE (pd.map placeRing) (capture pd) = some pd := by
  have h := restoreE_capture pd [] hnd (by intro d _ a2 ha2; cases ha2)
  simpa using h

/-- Rebuilding a registry from the original construction data with an
initial state equal to a captured snapshot of a run of that registry yields
exactly the captured registry. -/
theorem makePointDict_capture (pd pdMid : List Outlet)
    (hnd : (pd.map outletKey).Nodup)
    (hspec : pdMid.map specOf = pd.map specOf) :
    makePointDict (pd.map specOf) (some (capture pdMid)) = some pdMid := by
  show restoreE ((pd.map specOf).map fun s =>
    mkOutlet s (some (capture pdMid)).isSome) (capture pdMid) = some pdMid
  have h1 : ((pd.map specOf).map fun s =>
      mkOutlet s (some (capture pdMid)).isSome) = pdMid.map placeRing := by
    rw [← hspec, List.map_map]
    exact List.map_congr_left fun d _ => mkOutlet_specOf_true d
  rw [h1]
  apply restore_fresh
  have h2 : ∀ l : List Outlet,
      l.map outletKey = (l.map specOf).map fun s => (s.y, s.x) := by
    intro l
    rw [List.map_map]
    rfl
  rw [h2, hspec, ← h2]
  exact hnd

/-- C3: for every registry with distinct outlet keys, splitting a
successful uninterrupted run at any timestep boundary, capturing the
post-rotation rings there, and rebuilding a fresh registry from the same
construction data with that snapshot as its initial state reproduces the
mid-run registry exactly, so the continued run emits exactly the remaining
timesteps' values and reaches the same final state. -/
theorem claim_C3 (pd : List Outlet) (gs1 gs2 : List Grid)
    (pdEnd : List Outlet) (flows : List (List ℚ))
    (hnd : (pd.map outletKey).Nodup)
    (hrun : runTimesteps pd (gs1 ++ gs2) = .ok (pdEnd, flows)) :
    ∃ pdMid flows1 flows2,
      runTimesteps pd gs1 = .ok (pdMid, flows1) ∧
      makePointDict (pd.map specOf) (some (capture pdMid)) = some pdMid ∧
      runTimesteps pdMid gs2 = .ok (pdEnd, flows2) ∧
      flows = flows1 ++ flows2 := by
  obtain ⟨pdMid, f1, f2, h1, h2, h3⟩ := runTimesteps_append hrun
  exact ⟨pdMid, f1, f2, h1,
    makePointDict_capture pd pdMid hnd (runTimesteps_ok_specOf h1), h2, h3⟩

/-- C3, witnessed on a two-outlet registry over two timesteps split after
the first. -/
theorem claim_C3_witness :
    (([outA5, outB3].map outletKey).Nodup ∧
      runTimesteps [outA5, outB3] ([[[1, 2]]] ++ [[[10, 20]]]) =
        .ok ([{ outA5 with ring := [20, 0] }, { outB3 with ring := [80, 0] }],
          [[1, 6], [12, 68]])) ∧
    (∃ pdMid flows1 flows2,
      runTimesteps [outA5, outB3] [[[1, 2]]] = .ok (pdMid, flows1) ∧
      makePointDict ([outA5, outB3].map specOf) (some (capture pdMid)) =
        some pdMid ∧
      runTimesteps pdMid [[[10, 20]]] =
        .ok ([{ outA5 with ring := [20, 0] }, { outB3 with ring := [80, 0] }],
          flows2) ∧
      ([[1, 6], [12, 68]] : List (List ℚ)) = flows1 ++ flows2) := by
  have hnd : ([outA5, outB3].map outletKey).Nodup := by decide
  have hrun : runTimesteps [outA5, outB3] ([[[1, 2]]] ++ [[[10, 20]]]) =
      .ok ([{ outA5 with ring := [20, 0] }, { outB3 with ring := [80, 0] }],
        [[1, 6], [12, 68]]) := by
    norm_num [runTimesteps, convolve, advanceOutlet, gatherFlux, lookupCell,
      outA5, outB3, contrib, dotProd, addVec, shift, List.get?]
  exact ⟨⟨hnd, hrun⟩,
    claim_C3 [outA5, outB3] [[[1, 2]]] [[[10, 20]]] _ _ hnd hrun⟩

end CoupConv
